import Mathlib

/-!
# Verification of the KotlinPdfium JNI layer (`src/main/cpp/pdfium_jni.cpp`)

Shallow embedding of the JNI wrapper functions around PDFium.  Each wrapped
PDFium entry point (an external C library) is modelled as an oracle parameter;
the control flow, bookkeeping (`g_docBuffers`, `libraryReferenceCount`), and
the arguments the wrapper passes to the library are translated faithfully from
the C++ source.  Library calls that the wrapper emits are recorded in explicit
call lists so that "the wrapper did / did not call the library with argument x"
is a provable statement.
-/

namespace PdfiumJni

/-! ## Library init / destroy reference count (`nativeInitLibrary` / `nativeDestroyLibrary`)

`static int libraryReferenceCount = 0;`.  `inited` tracks whether the PDFium
library is currently initialized; `initEvents` / `destroyEvents` count the
actual `FPDF_InitLibraryWithConfig` / `FPDF_DestroyLibrary` invocations. -/

structure LibState where
  count : Int
  inited : Bool
  initEvents : Nat
  destroyEvents : Nat
  deriving Repr, DecidableEq

def initialLibState : LibState := ⟨0, false, 0, 0⟩

/-- Model of `Java_com_hyntix_pdfium_PdfiumCore_nativeInitLibrary`:
if the reference count is 0, call `FPDF_InitLibraryWithConfig`; then increment. -/
def nativeInitLibrary (s : LibState) : LibState :=
  let s' := if s.count = 0 then
      { s with inited := true, initEvents := s.initEvents + 1 }
    else s
  { s' with count := s'.count + 1 }

/-- Model of `Java_com_hyntix_pdfium_PdfiumCore_nativeDestroyLibrary`:
decrement the reference count; if it reaches 0, call `FPDF_DestroyLibrary`. -/
def nativeDestroyLibrary (s : LibState) : LibState :=
  let s' := { s with count := s.count - 1 }
  if s'.count = 0 then
    { s' with inited := false, destroyEvents := s'.destroyEvents + 1 }
  else s'

def initN : Nat → LibState → LibState
  | 0, s => s
  | n + 1, s => nativeInitLibrary (initN n s)

def destroyN : Nat → LibState → LibState
  | 0, s => s
  | n + 1, s => nativeDestroyLibrary (destroyN n s)

/-! ## `nativeGetPageSizeByIndex`

The `FPDF_GetPageSizeByIndex` oracle is `q : Option (ℚ × ℚ)`: `some (w, h)`
when the library call succeeds writing `w`, `h`, `none` when it fails. -/

def nativeGetPageSizeByIndex (docPtr : Nat) (q : Option (ℚ × ℚ)) :
    Option (ℚ × ℚ) :=
  if docPtr = 0 then none
  else
    match q with
    | some wh => some wh
    | none => some (595, 842)

/-! ## Rendering (`nativeRenderPageBitmap`)

Constants from `android/bitmap.h`, `fpdfview.h` and `fpdf_progressive.h`. -/

def ANDROID_BITMAP_FORMAT_RGBA_8888 : Nat := 1
def FPDFBitmap_BGRA : Nat := 4
def FPDF_ANNOT : Nat := 0x01
def FPDF_REVERSE_BYTE_ORDER : Nat := 0x10
def FPDF_RENDER_FAILED : Int := 3

/-- The `AndroidBitmapInfo` fields the wrapper reads. -/
structure BitmapInfo where
  width : Nat
  height : Nat
  stride : Nat
  format : Nat
  deriving Repr, DecidableEq

/-- One call the wrapper makes into PDFium's bitmap/rendering API.  Only
`fillRect` and `renderPage` write into the locked pixel memory. -/
inductive RenderCall where
  | createEx (w h fmt stride : Nat)
  | fillRect (left top w h color : Nat)
  | renderPage (startX startY sizeX sizeY rotate : Int) (flags : Nat)
  | destroyBmp
  deriving Repr, DecidableEq

/-- Model of `Java_com_hyntix_pdfium_PdfiumCore_nativeRenderPageBitmap`, as the list of
PDFium bitmap/render calls it performs.  `bitmapNull` models a null `jobject`
bitmap, `getInfoOk`/`lockOk`/`createOk` model the fallible
`AndroidBitmap_getInfo` / `AndroidBitmap_lockPixels` / `FPDFBitmap_CreateEx`
steps. -/
def nativeRenderPageBitmap (pagePtr : Nat) (bitmapNull : Bool)
    (getInfoOk : Bool) (info : BitmapInfo) (lockOk createOk : Bool)
    (startX startY drawWidth drawHeight : Int) (renderAnnot : Bool) :
    List RenderCall :=
  if pagePtr = 0 ∨ bitmapNull then []
  else if ¬ getInfoOk then []
  else if info.width = 0 ∨ info.height = 0 then []
  else if info.format ≠ ANDROID_BITMAP_FORMAT_RGBA_8888 then []
  else if ¬ lockOk then []
  else if ¬ createOk then
    [.createEx info.width info.height FPDFBitmap_BGRA info.stride]
  else
    [.createEx info.width info.height FPDFBitmap_BGRA info.stride,
     .fillRect 0 0 info.width info.height 0xFFFFFFFF,
     .renderPage startX startY drawWidth drawHeight 0
       (FPDF_REVERSE_BYTE_ORDER + if renderAnnot then FPDF_ANNOT else 0),
     .destroyBmp]

/-- Does this library call write into the caller's pixel memory? -/
def RenderCall.writesPixels : RenderCall → Bool
  | .fillRect _ _ _ _ _ => true
  | .renderPage _ _ _ _ _ _ => true
  | _ => false

/-! ## Progressive rendering
(`nativeRenderPageBitmapStart` / `nativeRenderPageContinue`)

`JavaPauseCallback` is declared in the source but never instantiated: both
entry points pass `nullptr` for the `IFSDK_PAUSE*` argument.  The `pause`
field of the emitted calls records that pointer (`none` = null). -/

inductive ProgCall where
  | createEx (w h fmt stride : Nat)
  | fillRect (left top w h color : Nat)
  | renderStart (startX startY sizeX sizeY rotate : Int) (flags : Int)
      (pause : Option Unit)
  | renderContinue (pause : Option Unit)
  | destroyBmp
  deriving Repr, DecidableEq

/-- Model of `Java_com_hyntix_pdfium_PdfiumCore_nativeRenderPageBitmapStart`:
the `libStart` oracle is `FPDF_RenderPageBitmap_Start`, given the pause
pointer the wrapper passes. -/
def nativeRenderPageBitmapStart (pagePtr : Nat) (bitmapNull getInfoOk : Bool)
    (info : BitmapInfo) (lockOk createOk : Bool)
    (startX startY drawWidth drawHeight rotate flags : Int)
    (libStart : Option Unit → Int) : Int × List ProgCall :=
  if pagePtr = 0 ∨ bitmapNull then (FPDF_RENDER_FAILED, [])
  else if ¬ getInfoOk then (FPDF_RENDER_FAILED, [])
  else if info.format ≠ ANDROID_BITMAP_FORMAT_RGBA_8888 then
    (FPDF_RENDER_FAILED, [])
  else if ¬ lockOk then (FPDF_RENDER_FAILED, [])
  else if ¬ createOk then
    (FPDF_RENDER_FAILED,
     [.createEx info.width info.height FPDFBitmap_BGRA info.stride])
  else
    (libStart none,
     [.createEx info.width info.height FPDFBitmap_BGRA info.stride,
      .fillRect 0 0 info.width info.height 0xFFFFFFFF,
      .renderStart startX startY drawWidth drawHeight rotate flags none,
      .destroyBmp])

/-- Model of `Java_com_hyntix_pdfium_PdfiumCore_nativeRenderPageContinue`:
`libCont` is `FPDF_RenderPage_Continue`, given the pause pointer passed. -/
def nativeRenderPageContinue (pagePtr : Nat) (libCont : Option Unit → Int) :
    Int × List ProgCall :=
  if pagePtr = 0 then (FPDF_RENDER_FAILED, [])
  else (libCont none, [.renderContinue none])

/-- Does this library call carry a non-null pause callback? -/
def ProgCall.forwardsPause : ProgCall → Bool
  | .renderStart _ _ _ _ _ _ p => p.isSome
  | .renderContinue p => p.isSome
  | _ => false

/-- The claim C8 presupposes: some input to the progressive-render surface
results in a non-null pause callback reaching the library, so that a
caller-supplied pause predicate could be consulted. -/
def progressiveForwardsPausePredicate : Prop :=
  ∃ (pagePtr : Nat) (bitmapNull getInfoOk : Bool) (info : BitmapInfo)
    (lockOk createOk : Bool)
    (startX startY drawWidth drawHeight rotate flags : Int)
    (libStart libCont : Option Unit → Int),
    ((nativeRenderPageBitmapStart pagePtr bitmapNull getInfoOk info lockOk
        createOk startX startY drawWidth drawHeight rotate flags
        libStart).2.any ProgCall.forwardsPause = true) ∨
    ((nativeRenderPageContinue pagePtr libCont).2.any
        ProgCall.forwardsPause = true)

/-! ## Null-handle checking (`nativeGetPageCount`, `nativePathMoveTo`)

Each wrapper either short-circuits on a null (zero) handle or forwards the
handle to PDFium; the emitted library calls make the difference provable. -/

inductive DocCall where
  | getPageCount (doc : Nat)
  | pathMoveTo (pathObj : Nat) (x y : ℚ)
  deriving Repr, DecidableEq

/-- Model of `Java_com_hyntix_pdfium_PdfiumCore_nativeGetPageCount`:
`if (!doc) return 0;` before calling `FPDF_GetPageCount`. -/
def nativeGetPageCount (docPtr : Nat) (lib : Nat → Int) :
    Int × List DocCall :=
  if docPtr = 0 then (0, [])
  else (lib docPtr, [.getPageCount docPtr])

/-- Model of `Java_com_hyntix_pdfium_PdfiumCore_nativePathMoveTo`: casts the handle and
calls `FPDFPath_MoveTo(pathObj, x, y)` with no null check. -/
def nativePathMoveTo (pathObjPtr : Nat) (x y : ℚ)
    (lib : Nat → ℚ → ℚ → Bool) : Bool × List DocCall :=
  (lib pathObjPtr x y, [.pathMoveTo pathObjPtr x y])

/-- Claim C3 as stated, over the two cited operations: a null primary handle
short-circuits and is never passed to the wrapped library. -/
def nullHandleShortCircuits : Prop :=
  (∀ lib, (nativeGetPageCount 0 lib).2 = []) ∧
  (∀ x y lib, (nativePathMoveTo 0 x y lib).2 = [])

/-! ## String marshaling (`nativeGetMetaText`, `nativeGetPageLabel`)

The oracle for `FPDF_GetMetaText` / `FPDF_GetPageLabel` is `sizeQ` (the byte
count the size query returns) and `written` (the UTF-16 code units the fill
call writes into the buffer, given the buffer-length argument it receives).
The wrapper allocates `new unsigned short[size]` — `size` *uninitialized*
2-byte units, modelled as `Option Nat` cells (`none` = never written). -/

/-- Subtraction `n - 1` on C `unsigned long` (64-bit, wraps at zero). -/
def usub64 (n : Nat) : Nat := (n + (2 ^ 64 - 1)) % 2 ^ 64

structure MetaOracle where
  sizeQ : Nat
  written : Nat → List Nat

/-- Buffer of `cap` uninitialized units after the fill call wrote the units
`w` from the start. -/
def fillBuffer (cap : Nat) (w : List Nat) : List (Option Nat) :=
  (w.take cap).map some ++ List.replicate (cap - (w.take cap).length) none

/-- Model of `Java_com_hyntix_pdfium_PdfiumCore_nativeGetMetaText`: size query, then
(unless absent) one fill call with buffer-length argument `size`, returning
`size / 2 - 1` units of the buffer; result `none` models the null `jstring`
returned for a null document.  The second component lists the buffer-length
arguments of the fill calls performed. -/
def nativeGetMetaText (docPtr : Nat) (o : MetaOracle) :
    Option (List (Option Nat)) × List Nat :=
  if docPtr = 0 then (none, [])
  else if o.sizeQ = 0 then (some [], [])
  else
    let buf := fillBuffer o.sizeQ (o.written o.sizeQ)
    (some (buf.take (usub64 (o.sizeQ / 2))), [o.sizeQ])

/-- Model of `Java_com_hyntix_pdfium_PdfiumCore_nativeGetPageLabel`: same shape, but a
null document yields `""`, and the fill call's buffer-length argument is
`size * sizeof(unsigned short)`. -/
def nativeGetPageLabel (docPtr : Nat) (o : MetaOracle) :
    Option (List (Option Nat)) × List Nat :=
  if docPtr = 0 then (some [], [])
  else if o.sizeQ = 0 then (some [], [])
  else
    let buf := fillBuffer o.sizeQ (o.written ((o.sizeQ * 2) % 2 ^ 64))
    (some (buf.take (usub64 (o.sizeQ / 2))), [(o.sizeQ * 2) % 2 ^ 64])

/-- The failure clause of claim C2: if the fill call writes fewer bytes than
requested, the operation surfaces an empty string. -/
def metaTextShortWriteGuard : Prop :=
  ∀ (d : Nat) (o : MetaOracle), d ≠ 0 → o.sizeQ ≠ 0 →
    2 * (o.written o.sizeQ).length < o.sizeQ →
    (nativeGetMetaText d o).1 = some []

/-! ## Document opening (`nativeOpenDocument`, `nativeOpenMemDocument`)

`f idx remaining` is the return value of the `idx`-th `read(fd, ptr,
remaining)` call (POSIX: at most `remaining`, which the theorems assume);
`loader n` is `FPDF_LoadMemDocument` on an `n`-byte buffer, `0` = failure. -/

/-- The `while (remaining > 0)` read loop of `nativeOpenDocument`: `true` iff
the loop falls through with all bytes read, `false` iff some `read` returned
`<= 0` first. -/
def readLoop (f : Nat → Nat → Int) (idx remaining : Nat) : Bool :=
  if h0 : remaining = 0 then true
  else
    let r := f idx remaining
    if h : r ≤ 0 then false
    else readLoop f (idx + 1) (remaining - r.toNat)
  termination_by remaining
  decreasing_by omega

/-- Total number of bytes the read loop consumed before stopping. -/
def readTotal (f : Nat → Nat → Int) (idx remaining : Nat) : Nat :=
  if h0 : remaining = 0 then 0
  else
    let r := f idx remaining
    if h : r ≤ 0 then 0
    else r.toNat + readTotal f (idx + 1) (remaining - r.toNat)
  termination_by remaining
  decreasing_by omega

/-- Outcome of one document-open wrapper: the returned handle, the byte count
handed to `FPDF_LoadMemDocument` (`none` = loader never called), whether the
owned buffer was `delete[]`d before returning, and whether it was registered
in `g_docBuffers`. -/
structure OpenDocResult where
  handle : Nat
  loaderArg : Option Nat
  bufFreedAtOpen : Bool
  bufRegistered : Bool
  deriving Repr, DecidableEq

/-- Model of `Java_com_hyntix_pdfium_PdfiumCore_nativeOpenDocument` (descriptor path):
size check, buffer allocation (`allocOk`), read loop, then load. -/
def nativeOpenDocument (fileSize : Int) (allocOk : Bool)
    (f : Nat → Nat → Int) (loader : Nat → Nat) : OpenDocResult :=
  if fileSize ≤ 0 then ⟨0, none, false, false⟩
  else if ¬ allocOk then ⟨0, none, false, false⟩
  else if readLoop f 0 fileSize.toNat then
    let doc := loader fileSize.toNat
    if doc = 0 then ⟨0, some fileSize.toNat, true, false⟩
    else ⟨doc, some fileSize.toNat, false, true⟩
  else ⟨0, none, true, false⟩

/-- Model of `Java_com_hyntix_pdfium_PdfiumCore_nativeOpenMemDocument` (bytes path):
copy the caller's array into an owned buffer of `length` bytes, load, and on
failure free the copy. -/
def nativeOpenMemDocument (length : Nat) (loader : Nat → Nat) :
    OpenDocResult :=
  let doc := loader length
  if doc = 0 then ⟨0, some length, true, false⟩
  else ⟨doc, some length, false, true⟩

/-! ## Buffer ownership registry (`g_docBuffers`)

Trace model of the open/close surface and its effect on the
`std::map<FPDF_DOCUMENT, char*> g_docBuffers` table.  Handles are the
nonzero values PDFium's loaders return; each `new char[...]` allocation gets
a fresh id `nextBuf`, and `freed` records every `delete[]` in order.  The
ghost lists `liveMemFd` / `livePath` track which documents are currently
open and through which route.  Events carry the loader's outcome: `openMemOk
h` is `nativeOpenMemDocument` with `FPDF_LoadMemDocument` returning handle
`h`, `openMemFail` is the same wrapper when the loader fails (the wrapper
`delete[]`s the copy), and so on; `close h` is `nativeCloseDocument`. -/

inductive Event where
  | openMemOk (h : Nat)
  | openMemFail
  | openFdOk (h : Nat)
  | openFdFail
  | openPathOk (h : Nat)
  | openPathFail
  | close (h : Nat)
  deriving Repr, DecidableEq

structure RegState where
  table : List (Nat × Nat)
  liveMemFd : List Nat
  livePath : List Nat
  nextBuf : Nat
  freed : List Nat
  deriving Repr, DecidableEq

def initialRegState : RegState := ⟨[], [], [], 0, []⟩

/-- Lookup `g_docBuffers.find(doc)`. -/
def lookupKey : List (Nat × Nat) → Nat → Option Nat
  | [], _ => none
  | (k, b) :: t, h => if k = h then some b else lookupKey t h

/-- Erasure `g_docBuffers.erase(it)` for the entry with key `h`. -/
def eraseKey : List (Nat × Nat) → Nat → List (Nat × Nat)
  | [], _ => []
  | (k, b) :: t, h => if k = h then t else (k, b) :: eraseKey t h

def step (s : RegState) : Event → RegState
  | .openMemOk h =>
      { s with table := (h, s.nextBuf) :: s.table,
               liveMemFd := h :: s.liveMemFd,
               nextBuf := s.nextBuf + 1 }
  | .openMemFail =>
      { s with nextBuf := s.nextBuf + 1, freed := s.nextBuf :: s.freed }
  | .openFdOk h =>
      { s with table := (h, s.nextBuf) :: s.table,
               liveMemFd := h :: s.liveMemFd,
               nextBuf := s.nextBuf + 1 }
  | .openFdFail =>
      { s with nextBuf := s.nextBuf + 1, freed := s.nextBuf :: s.freed }
  | .openPathOk h =>
      { s with livePath := h :: s.livePath }
  | .openPathFail => s
  | .close h =>
      if h = 0 then s
      else
        match lookupKey s.table h with
        | some b =>
            { s with table := eraseKey s.table h,
                     liveMemFd := s.liveMemFd.erase h,
                     livePath := s.livePath.erase h,
                     freed := b :: s.freed }
        | none =>
            { s with liveMemFd := s.liveMemFd.erase h,
                     livePath := s.livePath.erase h }

/-- The library returns a fresh nonzero handle on each successful open
(PDFium does not hand out a handle that is still open). -/
def eventWF (s : RegState) : Event → Bool
  | .openMemOk h =>
      h != 0 && ! s.liveMemFd.contains h && ! s.livePath.contains h
  | .openFdOk h =>
      h != 0 && ! s.liveMemFd.contains h && ! s.livePath.contains h
  | .openPathOk h =>
      h != 0 && ! s.liveMemFd.contains h && ! s.livePath.contains h
  | _ => true

def run : RegState → List Event → RegState
  | s, [] => s
  | s, e :: es => run (step s e) es

def traceWF : RegState → List Event → Bool
  | _, [] => true
  | s, e :: es => eventWF s e && traceWF (step s e) es

/-- Reachable-state invariant of the ownership registry. -/
def RegInv (s : RegState) : Prop :=
  s.table.map Prod.fst = s.liveMemFd ∧
  s.liveMemFd.Nodup ∧
  s.livePath.Nodup ∧
  (∀ h ∈ s.liveMemFd, h ∉ s.livePath) ∧
  0 ∉ s.liveMemFd ∧
  (s.table.map Prod.snd).Nodup ∧
  (∀ b ∈ s.table.map Prod.snd, b ∉ s.freed ∧ b < s.nextBuf) ∧
  s.freed.Nodup ∧
  (∀ b ∈ s.freed, b < s.nextBuf)

end PdfiumJni

namespace PdfiumJni

/-- C9: library init/shutdown keeps a process-wide reference count; the
library is initialized only by the init call that finds the count at zero,
later inits only increment, and the library is destroyed only when the count
returns to zero, so `n` inits followed by `m < n` shutdowns leave it
initialized. -/
theorem init_destroy_refcount (n m : Nat) (h : m < n) :
    (destroyN m (initN n initialLibState)).inited = true ∧
    (destroyN m (initN n initialLibState)).count = (n : Int) - m ∧
    (destroyN m (initN n initialLibState)).initEvents = 1 ∧
    (destroyN m (initN n initialLibState)).destroyEvents = 0 := by
  show (let s := destroyN m (initN n initialLibState)
    s.inited = true ∧ s.count = (n : Int) - m ∧
    s.initEvents = 1 ∧ s.destroyEvents = 0)
  have hinit : ∀ k : Nat, initN k initialLibState =
      ⟨(k : Int), decide (0 < k), min k 1, 0⟩ := by
    intro k
    induction k with
    | zero => rfl
    | succ k ih =>
      rw [initN, ih]
      rcases Nat.eq_zero_or_pos k with hk | hk
      · subst hk; rfl
      · have hne : ((k : Nat) : Int) ≠ 0 := by exact_mod_cast hk.ne'
        simp only [nativeInitLibrary, if_neg hne]
        simp only [LibState.mk.injEq]
        refine ⟨by push_cast; ring, ?_, by omega, trivial⟩
        simp only [decide_eq_decide]
        omega
  have hdest : ∀ (j : Nat) (s : LibState), (j : Int) < s.count →
      destroyN j s = { s with count := s.count - j } := by
    intro j
    induction j with
    | zero => intro s _; simp [destroyN]
    | succ j ih =>
      intro s hs
      have hj : (j : Int) < s.count := by push_cast at hs; omega
      rw [destroyN, ih s hj]
      simp only [nativeDestroyLibrary]
      have hne : s.count - (j : Int) - 1 ≠ 0 := by push_cast at hs; omega
      rw [if_neg hne]
      have harg : s.count - (j : Int) - 1 = s.count - ((j + 1 : Nat) : Int) := by
        push_cast; ring
      rw [harg]
  intro s
  have h1 : initN n initialLibState = ⟨(n : Int), decide (0 < n), min n 1, 0⟩ :=
    hinit n
  have h2 : s = { (⟨(n : Int), decide (0 < n), min n 1, 0⟩ : LibState) with
      count := (n : Int) - m } := by
    show destroyN m (initN n initialLibState) = _
    rw [h1]
    refine hdest m _ ?_
    show (m : Int) < (n : Int)
    exact_mod_cast h
  rw [h2]
  refine ⟨?_, rfl, ?_, rfl⟩
  · simp only [decide_eq_true_eq]
    omega
  · show min n 1 = 1
    omega

/-- Witness for `init_destroy_refcount` at `n = 3`, `m = 2`. -/
theorem init_destroy_refcount_witness :
    (2 < 3) ∧
    ((destroyN 2 (initN 3 initialLibState)).inited = true ∧
      (destroyN 2 (initN 3 initialLibState)).count = (3 : Int) - 2 ∧
      (destroyN 2 (initN 3 initialLibState)).initEvents = 1 ∧
      (destroyN 2 (initN 3 initialLibState)).destroyEvents = 0) :=
  ⟨by decide, init_destroy_refcount 3 2 (by decide)⟩

/-- C10: with a non-null document handle, `nativeGetPageSizeByIndex`
substitutes the A4 default `(595.0, 842.0)` exactly when the library's
per-index size query fails, passes the queried pair through unchanged when it
succeeds, and returns null for a null document handle. -/
theorem getPageSizeByIndex_default_a4 (docPtr : Nat) (hd : docPtr ≠ 0) :
    nativeGetPageSizeByIndex docPtr none = some (595, 842) ∧
    (∀ wh : ℚ × ℚ, nativeGetPageSizeByIndex docPtr (some wh) = some wh) ∧
    (∀ q : Option (ℚ × ℚ), nativeGetPageSizeByIndex 0 q = none) := by
  refine ⟨?_, ?_, ?_⟩
  · simp [nativeGetPageSizeByIndex, hd]
  · intro wh; simp [nativeGetPageSizeByIndex, hd]
  · intro q; simp [nativeGetPageSizeByIndex]

/-- Witness for `getPageSizeByIndex_default_a4` at handle 7. -/
theorem getPageSizeByIndex_default_a4_witness :
    nativeGetPageSizeByIndex 7 none = some (595, 842) ∧
    (∀ wh : ℚ × ℚ, nativeGetPageSizeByIndex 7 (some wh) = some wh) ∧
    (∀ q : Option (ℚ × ℚ), nativeGetPageSizeByIndex 0 q = none) :=
  getPageSizeByIndex_default_a4 7 (by decide)

/-- C6: a `nativeRenderPageBitmap` call whose surface format is not
RGBA_8888 makes no PDFium bitmap/render call at all: no conversion is
attempted and the surface's pixels are not modified. -/
theorem renderPageBitmap_rejects_unsupported_format
    (pagePtr : Nat) (bitmapNull getInfoOk : Bool) (info : BitmapInfo)
    (lockOk createOk : Bool) (startX startY drawWidth drawHeight : Int)
    (renderAnnot : Bool)
    (hf : info.format ≠ ANDROID_BITMAP_FORMAT_RGBA_8888) :
    nativeRenderPageBitmap pagePtr bitmapNull getInfoOk info lockOk createOk
        startX startY drawWidth drawHeight renderAnnot = [] ∧
    ((nativeRenderPageBitmap pagePtr bitmapNull getInfoOk info lockOk createOk
        startX startY drawWidth drawHeight renderAnnot).all
      fun c => ! c.writesPixels) = true := by
  have h : nativeRenderPageBitmap pagePtr bitmapNull getInfoOk info lockOk
      createOk startX startY drawWidth drawHeight renderAnnot = [] := by
    simp [nativeRenderPageBitmap, hf]
  exact ⟨h, by rw [h]; rfl⟩

/-- Witness for `renderPageBitmap_rejects_unsupported_format` on an
RGB_565-format (4) surface. -/
theorem renderPageBitmap_rejects_unsupported_format_witness :
    nativeRenderPageBitmap 5 false true ⟨100, 200, 400, 4⟩ true true
        0 0 100 200 true = [] ∧
    ((nativeRenderPageBitmap 5 false true ⟨100, 200, 400, 4⟩ true true
        0 0 100 200 true).all fun c => ! c.writesPixels) = true :=
  renderPageBitmap_rejects_unsupported_format 5 false true ⟨100, 200, 400, 4⟩
    true true 0 0 100 200 true (by decide)

/-- C7: on the accepted path, `nativeRenderPageBitmap` fills the whole target
region with opaque white (`0xFFFFFFFF`) before the rasterizer call, passes
flags with the byte-order-reversal bit (bit 4, `FPDF_REVERSE_BYTE_ORDER`)
always set, and sets the annotation bit (bit 0, `FPDF_ANNOT`) iff
`renderAnnot` is true. -/
theorem renderPageBitmap_white_fill_and_flags
    (pagePtr : Nat) (info : BitmapInfo)
    (startX startY drawWidth drawHeight : Int) (renderAnnot : Bool)
    (hp : pagePtr ≠ 0) (hw : info.width ≠ 0) (hh : info.height ≠ 0)
    (hf : info.format = ANDROID_BITMAP_FORMAT_RGBA_8888) :
    nativeRenderPageBitmap pagePtr false true info true true
        startX startY drawWidth drawHeight renderAnnot =
      [.createEx info.width info.height FPDFBitmap_BGRA info.stride,
       .fillRect 0 0 info.width info.height 0xFFFFFFFF,
       .renderPage startX startY drawWidth drawHeight 0
         (FPDF_REVERSE_BYTE_ORDER + if renderAnnot then FPDF_ANNOT else 0),
       .destroyBmp] ∧
    (FPDF_REVERSE_BYTE_ORDER +
        if renderAnnot then FPDF_ANNOT else 0).testBit 4 = true ∧
    ((FPDF_REVERSE_BYTE_ORDER +
        if renderAnnot then FPDF_ANNOT else 0).testBit 0 = renderAnnot) := by
  refine ⟨?_, ?_, ?_⟩
  · simp [nativeRenderPageBitmap, hp, hw, hh, hf]
  · cases renderAnnot <;> decide
  · cases renderAnnot <;> decide

/-- Witness for `renderPageBitmap_white_fill_and_flags` on a 100×200
RGBA_8888 surface with annotations enabled. -/
theorem renderPageBitmap_white_fill_and_flags_witness :
    nativeRenderPageBitmap 5 false true ⟨100, 200, 400, 1⟩ true true
        0 0 100 200 true =
      [.createEx 100 200 FPDFBitmap_BGRA 400,
       .fillRect 0 0 100 200 0xFFFFFFFF,
       .renderPage 0 0 100 200 0
         (FPDF_REVERSE_BYTE_ORDER + if true then FPDF_ANNOT else 0),
       .destroyBmp] ∧
    (FPDF_REVERSE_BYTE_ORDER +
        if true then FPDF_ANNOT else 0).testBit 4 = true ∧
    ((FPDF_REVERSE_BYTE_ORDER +
        if true then FPDF_ANNOT else 0).testBit 0 = true) :=
  renderPageBitmap_white_fill_and_flags 5 ⟨100, 200, 400, 1⟩ 0 0 100 200 true
    (by decide) (by decide) (by decide) (by decide)

/-- C8 counterexample: no input to the progressive-render surface ever puts a
non-null pause callback in the hands of the library — both
`nativeRenderPageBitmapStart` and `nativeRenderPageContinue` pass a null
`IFSDK_PAUSE*`, so no caller-supplied pause predicate is ever consulted. -/
theorem progressive_pause_never_forwarded :
    ¬ progressiveForwardsPausePredicate := by
  rintro ⟨pagePtr, bitmapNull, getInfoOk, info, lockOk, createOk,
    startX, startY, drawWidth, drawHeight, rotate, flags, libStart, libCont,
    h | h⟩
  · unfold nativeRenderPageBitmapStart at h
    split_ifs at h <;> simp [ProgCall.forwardsPause] at h
  · unfold nativeRenderPageContinue at h
    split_ifs at h <;> simp [ProgCall.forwardsPause] at h

/-- C8 amended: every PDFium call emitted by the progressive-render entry
points carries a null pause callback, so rendering always behaves as if no
pause predicate (equivalently, an always-false one) had been supplied; a null
page yields `FPDF_RENDER_FAILED` with no library call. -/
theorem progressive_pause_argument_always_null
    (pagePtr : Nat) (bitmapNull getInfoOk : Bool) (info : BitmapInfo)
    (lockOk createOk : Bool)
    (startX startY drawWidth drawHeight rotate flags : Int)
    (libStart libCont : Option Unit → Int) :
    ((nativeRenderPageBitmapStart pagePtr bitmapNull getInfoOk info lockOk
        createOk startX startY drawWidth drawHeight rotate flags
        libStart).2.all fun c => ! c.forwardsPause) = true ∧
    ((nativeRenderPageContinue pagePtr libCont).2.all
        fun c => ! c.forwardsPause) = true ∧
    nativeRenderPageContinue 0 libCont = (FPDF_RENDER_FAILED, []) := by
  refine ⟨?_, ?_, ?_⟩
  · unfold nativeRenderPageBitmapStart
    split_ifs <;> simp [ProgCall.forwardsPause]
  · unfold nativeRenderPageContinue
    split_ifs <;> simp [ProgCall.forwardsPause]
  · rfl

/-- C3 counterexample: `nativePathMoveTo` does not short-circuit on a null
path-object handle — the null handle is forwarded to `FPDFPath_MoveTo`
(here at `x = 1`, `y = 2`). -/
theorem pathMoveTo_forwards_null_handle : ¬ nullHandleShortCircuits := by
  intro h
  have h2 := h.2 1 2 fun _ _ _ => false
  simp [nativePathMoveTo] at h2

/-- C3 amended: document/page-level operations such as `nativeGetPageCount`
do check a null primary handle and short-circuit to their sentinel with no
library call, but the path-object operations (`nativePathMoveTo`) pass the
primary handle — null included — directly to the wrapped library. -/
theorem nullHandle_check_coverage (x y : ℚ) (libCount : Nat → Int)
    (libMove : Nat → ℚ → ℚ → Bool) :
    nativeGetPageCount 0 libCount = (0, []) ∧
    nativePathMoveTo 0 x y libMove = (libMove 0 x y, [.pathMoveTo 0 x y]) :=
  ⟨rfl, rfl⟩

lemma fillBuffer_length (cap : Nat) (w : List Nat) :
    (fillBuffer cap w).length = cap := by
  simp [fillBuffer]

/-- C2 counterexample: with a non-null document, size query 6 and a fill call
that writes only one unit (2 bytes < 6 requested), `nativeGetMetaText`
returns a 2-unit string whose second unit was never written — not the empty
string the claim requires. -/
theorem metaText_short_write_not_guarded : ¬ metaTextShortWriteGuard := by
  intro h
  have hval := h 1 ⟨6, fun _ => [65]⟩ (by decide) (by decide) (by decide)
  exact absurd hval (by decide)

/-- C2 amended: a size query of 0 yields the empty string with no fill call
(for both `nativeGetMetaText` and `nativeGetPageLabel`); otherwise exactly
one fill call is made and the result is the first `size/2 - 1` units of the
buffer — the fill call's own return value is ignored, so the caller-visible
length is `size/2 - 1` regardless of how many bytes the fill call wrote, and
when it wrote fewer the surplus units are unwritten buffer contents. -/
theorem metaText_size_query_fill_protocol (d : Nat) (o : MetaOracle)
    (hd : d ≠ 0) (hsz : o.sizeQ < 2 ^ 64) (hev : 2 ∣ o.sizeQ) :
    (o.sizeQ = 0 →
      nativeGetMetaText d o = (some [], []) ∧
      nativeGetPageLabel d o = (some [], [])) ∧
    (o.sizeQ ≠ 0 →
      (nativeGetMetaText d o).2 = [o.sizeQ] ∧
      (nativeGetMetaText d o).1 = some
        ((fillBuffer o.sizeQ (o.written o.sizeQ)).take (o.sizeQ / 2 - 1)) ∧
      ∃ l, (nativeGetMetaText d o).1 = some l ∧
        l.length = o.sizeQ / 2 - 1) := by
  constructor
  · intro h0
    constructor <;> simp [nativeGetMetaText, nativeGetPageLabel, hd, h0]
  · intro hne
    have hq : usub64 (o.sizeQ / 2) = o.sizeQ / 2 - 1 := by
      unfold usub64
      omega
    refine ⟨by simp [nativeGetMetaText, hd, hne], ?_, ?_⟩
    · simp [nativeGetMetaText, hd, hne, hq]
    · refine ⟨(fillBuffer o.sizeQ (o.written o.sizeQ)).take (o.sizeQ / 2 - 1),
        by simp [nativeGetMetaText, hd, hne, hq], ?_⟩
      rw [List.length_take, fillBuffer_length]
      omega

lemma readLoop_eq_true_total (f : Nat → Nat → Int) (hf : ∀ i n, f i n ≤ n) :
    ∀ remaining idx, readLoop f idx remaining = true →
      readTotal f idx remaining = remaining := by
  intro remaining
  induction remaining using Nat.strong_induction_on with
  | _ remaining ih =>
    intro idx h
    by_cases h0 : remaining = 0
    · subst h0
      simp [readTotal]
    · rw [readLoop, dif_neg h0] at h
      rw [readTotal, dif_neg h0]
      by_cases hr : f idx remaining ≤ 0
      · rw [dif_pos hr] at h
        exact absurd h (by simp)
      · rw [dif_neg hr] at h
        rw [dif_neg hr]
        have hlt : remaining - (f idx remaining).toNat < remaining := by omega
        have htot := ih _ hlt (idx + 1) h
        have hle := hf idx remaining
        omega

/-- C5: in `nativeOpenDocument`, a read error or short read is fatal: the
wrapper frees the partially filled buffer, returns the sentinel 0, and never
calls the loader; the loader, when called, always receives exactly `fileSize`
bytes; and a successful read loop has consumed all `fileSize` bytes. -/
theorem openDocument_short_read_fatal (fileSize : Int) (f : Nat → Nat → Int)
    (loader : Nat → Nat) (hpos : 0 < fileSize) (hf : ∀ i n, f i n ≤ n) :
    (readLoop f 0 fileSize.toNat = false →
      nativeOpenDocument fileSize true f loader = ⟨0, none, true, false⟩) ∧
    (∀ n, (nativeOpenDocument fileSize true f loader).loaderArg = some n →
      n = fileSize.toNat) ∧
    (readLoop f 0 fileSize.toNat = true →
      readTotal f 0 fileSize.toNat = fileSize.toNat) := by
  have hns : ¬ fileSize ≤ 0 := by omega
  refine ⟨?_, ?_, ?_⟩
  · intro hrl
    simp [nativeOpenDocument, hns, hrl]
  · intro n hn
    simp only [nativeOpenDocument, if_neg hns] at hn
    norm_num at hn
    split at hn
    · split at hn <;> (simp at hn; omega)
    · simp at hn
  · intro hrl
    exact readLoop_eq_true_total f hf _ 0 hrl

/-- Witness for `openDocument_short_read_fatal`: a 4-byte file read in four
1-byte chunks, loader returning handle 9. -/
theorem openDocument_short_read_fatal_witness :
    ((0 : Int) < 4) ∧
    ((readLoop (fun _ n => (↑(min 1 n) : Int)) 0 (4 : Int).toNat = false →
      nativeOpenDocument 4 true (fun _ n => (↑(min 1 n) : Int))
        (fun _ => 9) = ⟨0, none, true, false⟩) ∧
     (∀ n, (nativeOpenDocument 4 true (fun _ n => (↑(min 1 n) : Int))
        (fun _ => 9)).loaderArg = some n → n = (4 : Int).toNat) ∧
     (readLoop (fun _ n => (↑(min 1 n) : Int)) 0 (4 : Int).toNat = true →
      readTotal (fun _ n => (↑(min 1 n) : Int)) 0 (4 : Int).toNat =
        (4 : Int).toNat)) :=
  ⟨by norm_num,
   openDocument_short_read_fatal 4 (fun _ n => (↑(min 1 n) : Int))
     (fun _ => 9) (by norm_num)
     (by intro i n; show (↑(min 1 n) : Int) ≤ ↑n
         exact_mod_cast Nat.min_le_right 1 n)⟩

lemma eraseKey_sublist (t : List (Nat × Nat)) (h : Nat) :
    List.Sublist (eraseKey t h) t := by
  induction t with
  | nil => exact List.Sublist.refl _
  | cons p t ih =>
    obtain ⟨k, b⟩ := p
    rw [eraseKey]
    by_cases hk : k = h
    · rw [if_pos hk]
      exact (List.Sublist.refl t).cons _
    · rw [if_neg hk]
      exact ih.cons₂ _

lemma map_fst_eraseKey (t : List (Nat × Nat)) (h : Nat) :
    (eraseKey t h).map Prod.fst = (t.map Prod.fst).erase h := by
  induction t with
  | nil => rfl
  | cons p t ih =>
    obtain ⟨k, b⟩ := p
    rw [eraseKey]
    by_cases hk : k = h
    · subst hk
      simp [List.erase_cons]
    · rw [if_neg hk]
      simp [List.erase_cons, hk, ih]

lemma lookupKey_mem_snd {t : List (Nat × Nat)} {h b : Nat}
    (hl : lookupKey t h = some b) : b ∈ t.map Prod.snd := by
  induction t with
  | nil => simp [lookupKey] at hl
  | cons p t ih =>
    obtain ⟨k, c⟩ := p
    rw [lookupKey] at hl
    by_cases hk : k = h
    · rw [if_pos hk] at hl
      injection hl with hbc
      simp [hbc]
    · rw [if_neg hk] at hl
      simp [ih hl]

lemma lookupKey_none_of_not_mem_fst {t : List (Nat × Nat)} {h : Nat}
    (hn : h ∉ t.map Prod.fst) : lookupKey t h = none := by
  induction t with
  | nil => rfl
  | cons p t ih =>
    obtain ⟨k, c⟩ := p
    simp only [List.map_cons, List.mem_cons, not_or] at hn
    rw [lookupKey, if_neg (fun hk => hn.1 hk.symm)]
    exact ih hn.2

lemma not_mem_fst_of_lookupKey_none {t : List (Nat × Nat)} {h : Nat}
    (hl : lookupKey t h = none) : h ∉ t.map Prod.fst := by
  induction t with
  | nil => simp
  | cons p t ih =>
    obtain ⟨k, c⟩ := p
    rw [lookupKey] at hl
    by_cases hk : k = h
    · rw [if_pos hk] at hl
      exact absurd hl (by simp)
    · rw [if_neg hk] at hl
      simp only [List.map_cons, List.mem_cons, not_or]
      exact ⟨fun hh => hk hh.symm, ih hl⟩

lemma lookupKey_not_mem_erase {t : List (Nat × Nat)} {h b : Nat}
    (hnd : (t.map Prod.snd).Nodup) (hl : lookupKey t h = some b) :
    b ∉ (eraseKey t h).map Prod.snd := by
  induction t with
  | nil => simp [lookupKey] at hl
  | cons p t ih =>
    obtain ⟨k, c⟩ := p
    rw [lookupKey] at hl
    rw [eraseKey]
    simp only [List.map_cons, List.nodup_cons] at hnd
    by_cases hk : k = h
    · rw [if_pos hk] at hl
      rw [if_pos hk]
      injection hl with hbc
      rw [← hbc]
      exact hnd.1
    · rw [if_neg hk] at hl
      rw [if_neg hk]
      simp only [List.map_cons, List.mem_cons, not_or]
      refine ⟨?_, ih hnd.2 hl⟩
      intro hbc
      exact hnd.1 (hbc ▸ lookupKey_mem_snd hl)

lemma regInv_openOk {s : RegState} {h : Nat} (hs : RegInv s) (hh0 : h ≠ 0)
    (hhm : h ∉ s.liveMemFd) (hhp : h ∉ s.livePath) :
    RegInv { s with table := (h, s.nextBuf) :: s.table,
                    liveMemFd := h :: s.liveMemFd,
                    nextBuf := s.nextBuf + 1 } := by
  obtain ⟨h1, h2, h3, h4, h5, h6, h7, h8, h9⟩ := hs
  refine ⟨?_, ?_, h3, ?_, ?_, ?_, ?_, h8, ?_⟩
  · show ((h, s.nextBuf) :: s.table).map Prod.fst = h :: s.liveMemFd
    simp [h1]
  · exact List.nodup_cons.mpr ⟨hhm, h2⟩
  · intro x hx
    rcases List.mem_cons.mp hx with rfl | hx'
    · exact hhp
    · exact h4 x hx'
  · simp only [List.mem_cons, not_or]
    exact ⟨fun e => hh0 e.symm, h5⟩
  · show (((h, s.nextBuf) :: s.table).map Prod.snd).Nodup
    simp only [List.map_cons, List.nodup_cons]
    exact ⟨fun hmem => absurd (h7 _ hmem).2 (lt_irrefl _), h6⟩
  · intro b hb
    show b ∉ s.freed ∧ b < s.nextBuf + 1
    simp only [List.map_cons, List.mem_cons] at hb
    rcases hb with rfl | hb'
    · exact ⟨fun hbf => absurd (h9 _ hbf) (lt_irrefl _), by omega⟩
    · obtain ⟨hf, hlt⟩ := h7 b hb'
      exact ⟨hf, by omega⟩
  · intro b hb
    exact Nat.lt_succ_of_lt (h9 b hb)

lemma regInv_openFail {s : RegState} (hs : RegInv s) :
    RegInv { s with nextBuf := s.nextBuf + 1,
                    freed := s.nextBuf :: s.freed } := by
  obtain ⟨h1, h2, h3, h4, h5, h6, h7, h8, h9⟩ := hs
  refine ⟨h1, h2, h3, h4, h5, h6, ?_, ?_, ?_⟩
  · intro b hb
    obtain ⟨hf, hlt⟩ := h7 b hb
    show b ∉ s.nextBuf :: s.freed ∧ b < s.nextBuf + 1
    refine ⟨?_, by omega⟩
    simp only [List.mem_cons, not_or]
    exact ⟨by omega, hf⟩
  · exact List.nodup_cons.mpr
      ⟨fun hm => absurd (h9 _ hm) (lt_irrefl _), h8⟩
  · intro b hb
    show b < s.nextBuf + 1
    rcases List.mem_cons.mp hb with rfl | hb'
    · omega
    · exact Nat.lt_succ_of_lt (h9 b hb')

lemma regInv_openPath {s : RegState} {h : Nat} (hs : RegInv s)
    (hhm : h ∉ s.liveMemFd) (hhp : h ∉ s.livePath) :
    RegInv { s with livePath := h :: s.livePath } := by
  obtain ⟨h1, h2, h3, h4, h5, h6, h7, h8, h9⟩ := hs
  refine ⟨h1, h2, List.nodup_cons.mpr ⟨hhp, h3⟩, ?_, h5, h6, h7, h8, h9⟩
  intro x hx
  simp only [List.mem_cons, not_or]
  exact ⟨fun e => hhm (e ▸ hx), h4 x hx⟩

lemma regInv_close {s : RegState} (h : Nat) (hs : RegInv s) :
    RegInv (step s (.close h)) := by
  obtain ⟨h1, h2, h3, h4, h5, h6, h7, h8, h9⟩ := hs
  simp only [step]
  by_cases hz : h = 0
  · rw [if_pos hz]
    exact ⟨h1, h2, h3, h4, h5, h6, h7, h8, h9⟩
  · rw [if_neg hz]
    cases hlk : lookupKey s.table h with
    | some b =>
      refine ⟨?_, h2.erase h, h3.erase h, ?_, ?_, ?_, ?_, ?_, ?_⟩
      · show (eraseKey s.table h).map Prod.fst = s.liveMemFd.erase h
        rw [map_fst_eraseKey, h1]
      · intro x hx hcon
        exact h4 x (List.mem_of_mem_erase hx) (List.mem_of_mem_erase hcon)
      · intro hcon
        exact h5 (List.mem_of_mem_erase hcon)
      · exact h6.sublist ((eraseKey_sublist s.table h).map Prod.snd)
      · intro b' hb'
        have hbsub : b' ∈ s.table.map Prod.snd :=
          ((eraseKey_sublist s.table h).map Prod.snd).subset hb'
        obtain ⟨hf, hlt⟩ := h7 b' hbsub
        refine ⟨?_, hlt⟩
        simp only [List.mem_cons, not_or]
        refine ⟨?_, hf⟩
        intro hbb
        exact lookupKey_not_mem_erase h6 hlk (hbb ▸ hb')
      · exact List.nodup_cons.mpr ⟨(h7 b (lookupKey_mem_snd hlk)).1, h8⟩
      · intro b' hb'
        rcases List.mem_cons.mp hb' with rfl | hb''
        · exact (h7 b' (lookupKey_mem_snd hlk)).2
        · exact h9 b' hb''
    | none =>
      have hnm : h ∉ s.liveMemFd := by
        rw [← h1]
        exact not_mem_fst_of_lookupKey_none hlk
      refine ⟨?_, h2.erase h, h3.erase h, ?_, ?_, h6, h7, h8, h9⟩
      · show s.table.map Prod.fst = s.liveMemFd.erase h
        rw [h1, List.erase_of_not_mem hnm]
      · intro x hx hcon
        exact h4 x (List.mem_of_mem_erase hx) (List.mem_of_mem_erase hcon)
      · intro hcon
        exact h5 (List.mem_of_mem_erase hcon)

lemma regInv_step {s : RegState} {e : Event} (hs : RegInv s)
    (hw : eventWF s e = true) : RegInv (step s e) := by
  cases e with
  | openMemOk h =>
    simp [eventWF] at hw
    exact regInv_openOk hs hw.1.1 hw.1.2 hw.2
  | openMemFail => exact regInv_openFail hs
  | openFdOk h =>
    simp [eventWF] at hw
    exact regInv_openOk hs hw.1.1 hw.1.2 hw.2
  | openFdFail => exact regInv_openFail hs
  | openPathOk h =>
    simp [eventWF] at hw
    exact regInv_openPath hs hw.1.2 hw.2
  | openPathFail => exact hs
  | close h => exact regInv_close h hs

lemma regInv_run : ∀ (es : List Event) (s : RegState), RegInv s →
    traceWF s es = true → RegInv (run s es) := by
  intro es
  induction es with
  | nil => intro s hs _; exact hs
  | cons e es ih =>
    intro s hs hw
    rw [traceWF, Bool.and_eq_true] at hw
    exact ih _ (regInv_step hs hw.1) hw.2

lemma regInv_initial : RegInv initialRegState := by
  refine ⟨rfl, List.nodup_nil, List.nodup_nil, ?_, ?_, List.nodup_nil, ?_,
    List.nodup_nil, ?_⟩ <;> simp [initialRegState]

/-- Witness for `metaText_size_query_fill_protocol`: document 1, size query
4 bytes, fill writing the units `[65, 0]`. -/
theorem metaText_size_query_fill_protocol_witness :
    (nativeGetMetaText 1 ⟨4, fun _ => [65, 0]⟩).2 = [4] ∧
    (nativeGetMetaText 1 ⟨4, fun _ => [65, 0]⟩).1 = some
      ((fillBuffer 4 [65, 0]).take (4 / 2 - 1)) ∧
    ∃ l, (nativeGetMetaText 1 ⟨4, fun _ => [65, 0]⟩).1 = some l ∧
      l.length = 4 / 2 - 1 :=
  (metaText_size_query_fill_protocol 1 ⟨4, fun _ => [65, 0]⟩
    (by decide) (by norm_num) (by decide)).2 (by decide)

/-- C1: after any well-formed interleaving of open and close calls, the
outstanding-buffer count equals the number of live bytes/descriptor-opened
documents; each such live document has exactly one registered buffer;
path-opened documents have no registry entry; no registered buffer has been
freed (never freed before close); no buffer is ever freed twice; and closing
a live bytes/descriptor document frees exactly its registered buffer and
removes the entry. -/
theorem buffer_ownership_invariant (es : List Event)
    (hwf : traceWF initialRegState es = true) :
    let s := run initialRegState es
    s.table.length = s.liveMemFd.length ∧
    (∀ h ∈ s.liveMemFd, (s.table.map Prod.fst).count h = 1) ∧
    (∀ h ∈ s.livePath, lookupKey s.table h = none) ∧
    (∀ b ∈ s.table.map Prod.snd, b ∉ s.freed) ∧
    s.freed.Nodup ∧
    (∀ h b, h ∈ s.liveMemFd → lookupKey s.table h = some b →
      (step s (.close h)).freed = b :: s.freed ∧
      lookupKey (step s (.close h)).table h = none) := by
  intro s
  obtain ⟨h1, h2, h3, h4, h5, h6, h7, h8, h9⟩ :=
    regInv_run es initialRegState regInv_initial hwf
  refine ⟨?_, ?_, ?_, fun b hb => (h7 b hb).1, h8, ?_⟩
  · rw [← h1, List.length_map]
  · intro h hm
    rw [h1]
    exact List.count_eq_one_of_mem h2 hm
  · intro h hp
    apply lookupKey_none_of_not_mem_fst
    rw [h1]
    intro hm
    exact h4 h hm hp
  · intro h b hm hlk
    have hz : h ≠ 0 := fun e => h5 (e ▸ hm)
    constructor
    · show (step s (.close h)).freed = b :: s.freed
      simp only [step, if_neg hz, hlk]
    · simp only [step, if_neg hz, hlk]
      apply lookupKey_none_of_not_mem_fst
      rw [map_fst_eraseKey, h1]
      exact h2.not_mem_erase

/-- Witness for `buffer_ownership_invariant`: a bytes open, a descriptor
open, a path open, and a close of the first document. -/
theorem buffer_ownership_invariant_witness :
    (traceWF initialRegState
      [.openMemOk 1, .openFdOk 2, .openPathOk 3, .close 1] = true) ∧
    (let s := run initialRegState
      [.openMemOk 1, .openFdOk 2, .openPathOk 3, .close 1]
     s.table.length = s.liveMemFd.length ∧
     (∀ h ∈ s.liveMemFd, (s.table.map Prod.fst).count h = 1) ∧
     (∀ h ∈ s.livePath, lookupKey s.table h = none) ∧
     (∀ b ∈ s.table.map Prod.snd, b ∉ s.freed) ∧
     s.freed.Nodup ∧
     (∀ h b, h ∈ s.liveMemFd → lookupKey s.table h = some b →
       (step s (.close h)).freed = b :: s.freed ∧
       lookupKey (step s (.close h)).table h = none)) :=
  ⟨by rfl, buffer_ownership_invariant
    [.openMemOk 1, .openFdOk 2, .openPathOk 3, .close 1] (by rfl)⟩

/-- C4: a failed open (e.g. wrong password: the loader returns null) yields
the sentinel 0, registers no buffer, and frees the buffer allocated for the
attempt — on both the bytes and the descriptor path — and the corresponding
failed-open registry step leaves the ownership table unchanged. -/
theorem open_failure_releases_buffer (length : Nat) (fileSize : Int)
    (f : Nat → Nat → Int) (loader : Nat → Nat) (s : RegState)
    (hl : ∀ n, loader n = 0) (hpos : 0 < fileSize)
    (hread : readLoop f 0 fileSize.toNat = true) :
    nativeOpenMemDocument length loader = ⟨0, some length, true, false⟩ ∧
    nativeOpenDocument fileSize true f loader =
      ⟨0, some fileSize.toNat, true, false⟩ ∧
    (step s .openMemFail).table = s.table ∧
    (step s .openFdFail).table = s.table := by
  have hns : ¬ fileSize ≤ 0 := by omega
  refine ⟨?_, ?_, rfl, rfl⟩
  · simp [nativeOpenMemDocument, hl]
  · simp [nativeOpenDocument, hns, hread, hl]

/-- Witness for `open_failure_releases_buffer`: a 10-byte bytes open and a
4-byte descriptor open (read in one chunk) against an always-failing
loader. -/
theorem open_failure_releases_buffer_witness :
    ((∀ n : Nat, (fun _ : Nat => 0) n = 0) ∧ (0 : Int) < 4 ∧
      readLoop (fun _ n => (n : Int)) 0 (4 : Int).toNat = true) ∧
    (nativeOpenMemDocument 10 (fun _ => 0) = ⟨0, some 10, true, false⟩ ∧
     nativeOpenDocument 4 true (fun _ n => (n : Int)) (fun _ => 0) =
       ⟨0, some (4 : Int).toNat, true, false⟩ ∧
     (step initialRegState .openMemFail).table = initialRegState.table ∧
     (step initialRegState .openFdFail).table = initialRegState.table) :=
  have hread : readLoop (fun _ n => (n : Int)) 0 (4 : Int).toNat = true := by
    rw [readLoop]
    norm_num
    rw [readLoop]
    simp
  ⟨⟨fun _ => rfl, by norm_num, hread⟩,
   open_failure_releases_buffer 10 4 (fun _ n => (n : Int)) (fun _ => 0)
     initialRegState (fun _ => rfl) (by norm_num) hread⟩

end PdfiumJni
